import Mathlib

/-!
Verification of the DigiGovDashboard extraction pipeline.

Shallow embedding of the core functions of daily_dashboard.py: the
parliament agenda point classifier, the cabinet protocol-decision
extractor, positional section assignment, the monthly-to-daily
synthesizer with its MD5-based deterministic jitter, the rate lookup,
the hybrid essence extractor, the cabinet agenda scraper skeleton,
daily-rate construction, and the statistics-resource row parser.

Conventions used throughout:
* Python strings are Lean Strings; Python string indices, slices and
  len operate on code points, matched by List Char operations.
* Python float arithmetic is modelled by exact rational arithmetic
  over Rat; round is Python round, i.e. round-half-to-even.
* Python datetime values at midnight are modelled by their proleptic
  Gregorian ordinal (toordinal), an integer; comparison of such
  datetimes coincides with integer comparison of ordinals.
* Regular expressions from the source are hand-compiled to explicit
  scanners over List Char; each scanner's doc comment names the
  pattern it implements.  The character classes of the patterns are
  modelled over the character ranges the dashboard's Latvian/ASCII
  data draws from.
* Network calls are modelled by an oracle of type String to Option
  String: some body for a successful GET, none for a raised error.
-/

namespace DigiGov

/-! ## Generic string and character helpers -/

/-- Python str.lower restricted to the Latin ranges occurring in the
dashboard's data: ASCII letters, Latin-1 letters and Latin Extended-A
(which contains all Latvian letters, for example the pairs at
0x100..0x137, 0x139..0x148, 0x14A..0x177 and 0x179..0x17E). -/
def pyLower (c : Char) : Char :=
  let n := c.toNat
  if 65 ≤ n ∧ n ≤ 90 then Char.ofNat (n + 32)
  else if 192 ≤ n ∧ n ≤ 222 ∧ n ≠ 215 then Char.ofNat (n + 32)
  else if 256 ≤ n ∧ n ≤ 311 ∧ n % 2 = 0 then Char.ofNat (n + 1)
  else if 313 ≤ n ∧ n ≤ 328 ∧ n % 2 = 1 then Char.ofNat (n + 1)
  else if 330 ≤ n ∧ n ≤ 375 ∧ n % 2 = 0 then Char.ofNat (n + 1)
  else if 377 ≤ n ∧ n ≤ 382 ∧ n % 2 = 1 then Char.ofNat (n + 1)
  else c

/-- Python str.lower over a whole string. -/
def lowerStr (s : String) : String := String.mk (s.data.map pyLower)

/-- Python ASCII digit test, modelling the regex class backslash-d on
the dashboard's data. -/
def isDigitCh (c : Char) : Bool := '0' ≤ c && c ≤ '9'

/-- Python regex whitespace class restricted to its ASCII part
(space, tab, newline, carriage return, form feed, vertical tab), the
whitespace the dashboard's documents use. -/
def isSpaceCh (c : Char) : Bool :=
  c = ' ' || c = '\t' || c = '\n' || c = '\x0d' || c = '\x0c' || c = '\x0b'

/-- Does the character list contain the given pattern as a contiguous
sublist?  Models the Python expression pattern in s. -/
def containsSub : List Char → List Char → Bool
  | [], needle => needle.isEmpty
  | h :: t, needle => needle.isPrefixOf (h :: t) || containsSub t needle

/-- Python in for strings. -/
def strContains (hay needle : String) : Bool := containsSub hay.data needle.data

/-! ## Parliament agenda point classification

Embeds the per-point classification inside get_parliament_agenda
(daily_dashboard.py lines 560..580) together with the constant keyword
tables VARAM_KEYWORDS and DIGITAL_TOPICS. -/

/-- Source constant VARAM_KEYWORDS. -/
def VARAM_KEYWORDS : List String :=
  ["viedās administrācijas un reģionālās attīstības ministrij",
   "varam"]

/-- Source constant DIGITAL_TOPICS. -/
def DIGITAL_TOPICS : List String :=
  ["digitāl", "e-pārvald", "e-pakalpojum", "datu pārvaldīb",
   "informācijas sistēm", "informācijas tehnoloģij", "kiberdrošīb",
   "elektronisk", "atvērt", "dati", "digitalizāc",
   "mākslīg", "intelekt", "platforma", "portāl",
   "IKT", "IT drošīb", "informācijas sabiedrīb",
   "tehnoloģiju attīstīb", "inovāci", "e-identit",
   "interoperabilit", "reģistr", "datu apstrād",
   "datu aizsardzīb", "privātum"]

/-- The code's is_keyword: any VARAM keyword occurs in the lower-cased
point. -/
def isKeywordHit (pointLower : String) : Bool :=
  VARAM_KEYWORDS.any (fun kw => strContains pointLower kw)

/-- The code's matches: how many DIGITAL_TOPICS entries, lower-cased,
occur as substrings of the lower-cased point. -/
def topicHitCount (pointLower : String) : Nat :=
  (DIGITAL_TOPICS.filter (fun dt => strContains pointLower (lowerStr dt))).length

/-- Match type recorded on an emitted parliament item. -/
inductive MatchKind where
  | keyword : MatchKind
  | content : MatchKind
deriving DecidableEq, Repr

/-- Per-point classification: keep the point if is_keyword or
is_digital holds, with match_type content if is_digital else keyword;
otherwise discard (none).  Direct embedding of the classification in
get_parliament_agenda. -/
def classifyPoint (point : String) : Option MatchKind :=
  let pl := lowerStr point
  let isKw := isKeywordHit pl
  let isDigital := 2 ≤ topicHitCount pl
  if isKw || isDigital then
    some (if isDigital then MatchKind.content else MatchKind.keyword)
  else
    none

/-! ## Cabinet protocol-decision extraction

Embeds the decision-line capture and merge loop of
get_cabinet_cudars_items (daily_dashboard.py lines 431..458), as a
function of the document's non-empty stripped lines. -/

/-- Python re.match of the pattern caret backslash-d plus literal
-TA- backslash-d plus, i.e. the line starts with digits, then -TA-,
then at least one digit. -/
def matchesTAPrefix (l : List Char) : Bool :=
  let ds := l.takeWhile isDigitCh
  let rest := l.drop ds.length
  !ds.isEmpty &&
    (match rest with
     | '-' :: 'T' :: 'A' :: '-' :: d :: _ => isDigitCh d
     | _ => false)

/-- Python full match of caret digits dot dollar: one or more digits,
a dot, then the end of the string (a Python dollar also accepts a
single final newline). -/
def matchesNumDot (l : List Char) : Bool :=
  let ds := l.takeWhile isDigitCh
  let rest := l.drop ds.length
  !ds.isEmpty &&
    (match rest with
     | ['.'] => true
     | ['.', '\n'] => true
     | _ => false)

/-- Python full match of caret digits dot whitespace-star dollar. -/
def matchesNumDotWs (l : List Char) : Bool :=
  let ds := l.takeWhile isDigitCh
  let rest := l.drop ds.length
  !ds.isEmpty &&
    (match rest with
     | '.' :: ws => ws.all isSpaceCh
     | _ => false)

/-- The footer test of the capture loop: the line contains the
copyright notice, the support-contact text or the version stamp. -/
def isFooterLine (l : String) : Bool :=
  strContains l "© Valsts" || strContains l "atbalsts@" || strContains l "Versija"

/-- The three states of the capture variable in the source: False,
the string next, and True. -/
inductive CaptureState where
  | off : CaptureState
  | nextLine : CaptureState
  | on : CaptureState
deriving DecidableEq, Repr

/-- The capture loop over the document's lines: start after a line
with a TA-number prefix, skip lines until a bare ordinal-marker line,
then collect lines until a footer line. -/
def captureDecisionLines : CaptureState → List String → List String
  | _, [] => []
  | cap, l :: ls =>
    if matchesTAPrefix l.data then
      captureDecisionLines CaptureState.nextLine ls
    else
      match cap with
      | CaptureState.off => captureDecisionLines CaptureState.off ls
      | CaptureState.nextLine =>
        if matchesNumDot l.data then
          if isFooterLine l then []
          else l :: captureDecisionLines CaptureState.on ls
        else
          captureDecisionLines CaptureState.nextLine ls
      | CaptureState.on =>
        if isFooterLine l then []
        else l :: captureDecisionLines CaptureState.on ls

/-- One step of the merge loop, with the merged list kept in reverse
order so that the last element is at the head.  Mirrors the source:
a bare ordinal line is appended with a trailing space when merged is
non-empty; a line following a pending ordinal is concatenated onto
it; otherwise the line is appended as-is. -/
def mergeStep (merged : List String) (dl : String) : List String :=
  if matchesNumDot dl.data && !merged.isEmpty then
    (dl ++ " ") :: merged
  else
    match merged with
    | m :: rest =>
      if matchesNumDotWs m.data then (m ++ dl) :: rest
      else dl :: m :: rest
    | [] => [dl]

/-- The full merge loop. -/
def mergeDecisionLines (ls : List String) : List String :=
  (ls.foldl mergeStep []).reverse

/-- Python str.strip: remove leading and trailing whitespace. -/
def pyStrip (s : String) : String :=
  String.mk (((s.data.dropWhile isSpaceCh).reverse.dropWhile isSpaceCh).reverse)

/-- The decision string built from the document's non-empty stripped
lines: capture, merge, join with spaces, strip, truncate to 600
characters; empty when nothing was merged. -/
def decisionFromLines (lines : List String) : String :=
  let merged := mergeDecisionLines (captureDecisionLines CaptureState.off lines)
  if merged.isEmpty then ""
  else String.mk ((pyStrip (String.intercalate " " merged)).data.take 600)

/-! ## Cabinet section assignment

Embeds the section-assignment loop of get_cabinet_cudars_items
(daily_dashboard.py lines 375..381): scan sections in reverse, pick
the first whose recorded offset is strictly below the item's offset,
default Unknown. -/

/-- An agenda section heading with its character offset in the page. -/
structure AgendaSection where
  name : String
  pos : Nat
deriving DecidableEq, Repr

/-- Scan a section list front to back and return the first name whose
offset is strictly below the item position. -/
def assignFromList : List AgendaSection → Nat → String
  | [], _ => "Unknown"
  | s :: rest, p => if s.pos < p then s.name else assignFromList rest p

/-- Section assigned to an item at position p: the reversed section
list is scanned and the first section with offset strictly below p
wins; Unknown when none does. -/
def assignSection (sections : List AgendaSection) (p : Nat) : String :=
  assignFromList sections.reverse p

/-! ## MD5

The jitter helper vary (daily_dashboard.py lines 177..181) seeds on
hashlib.md5 of the UTF-8 encoding of the ISO date joined to the
category tag.  This section is a complete executable MD5 over lists
of byte values (natural numbers below 256), so that the jitter can be
evaluated on concrete inputs exactly as the code computes it. -/

/-- Reduction modulo 2 to the 32. -/
def u32 (n : Nat) : Nat := n % 4294967296

/-- Bitwise complement within 32 bits of an already reduced value. -/
def bnot32 (x : Nat) : Nat := 4294967295 - u32 x

/-- Left rotation of a 32-bit value by s places (0 < s < 32). -/
def rotl32 (x s : Nat) : Nat :=
  u32 (u32 x * 2 ^ s) + u32 x / 2 ^ (32 - s)

/-- The 64 MD5 sine-table constants. -/
def md5K : List Nat :=
  [3614090360, 3905402710, 606105819, 3250441966, 4118548399, 1200080426, 2821735955, 4249261313,
   1770035416, 2336552879, 4294925233, 2304563134, 1804603682, 4254626195, 2792965006, 1236535329,
   4129170786, 3225465664, 643717713, 3921069994, 3593408605, 38016083, 3634488961, 3889429448,
   568446438, 3275163606, 4107603335, 1163531501, 2850285829, 4243563512, 1735328473, 2368359562,
   4294588738, 2272392833, 1839030562, 4259657740, 2763975236, 1272893353, 4139469664, 3200236656,
   681279174, 3936430074, 3572445317, 76029189, 3654602809, 3873151461, 530742520, 3299628645,
   4096336452, 1126891415, 2878612391, 4237533241, 1700485571, 2399980690, 4293915773, 2240044497,
   1873313359, 4264355552, 2734768916, 1309151649, 4149444226, 3174756917, 718787259, 3951481745]

/-- The 64 MD5 per-round shift amounts. -/
def md5S : List Nat :=
  [7, 12, 17, 22, 7, 12, 17, 22, 7, 12, 17, 22, 7, 12, 17, 22,
   5, 9, 14, 20, 5, 9, 14, 20, 5, 9, 14, 20, 5, 9, 14, 20,
   4, 11, 16, 23, 4, 11, 16, 23, 4, 11, 16, 23, 4, 11, 16, 23,
   6, 10, 15, 21, 6, 10, 15, 21, 6, 10, 15, 21, 6, 10, 15, 21]

/-- One MD5 round: the nonlinear function and message index depend on
the round number i; the state rotates through a, b, c, d. -/
def md5Round (M : List Nat) (st : Nat × Nat × Nat × Nat) (i : Nat) :
    Nat × Nat × Nat × Nat :=
  let a := st.1
  let b := st.2.1
  let c := st.2.2.1
  let d := st.2.2.2
  let fg : Nat × Nat :=
    if i < 16 then ((b &&& c) ||| (bnot32 b &&& d), i)
    else if i < 32 then ((d &&& b) ||| (bnot32 d &&& c), (5 * i + 1) % 16)
    else if i < 48 then (b ^^^ c ^^^ d, (3 * i + 5) % 16)
    else (c ^^^ (b ||| bnot32 d), (7 * i) % 16)
  let f := u32 (fg.1 + a + md5K.getD i 0 + M.getD fg.2 0)
  (d, u32 (b + rotl32 f (md5S.getD i 0)), b, c)

/-- Little-endian 32-bit word read from four consecutive bytes. -/
def le32At (l : List Nat) (i : Nat) : Nat :=
  l.getD i 0 + 256 * l.getD (i + 1) 0 + 65536 * l.getD (i + 2) 0 +
    16777216 * l.getD (i + 3) 0

/-- The sixteen message words of one 64-byte block. -/
def wordsOf (block : List Nat) : List Nat :=
  (List.range 16).map (fun j => le32At block (4 * j))

/-- Process one 64-byte block: 64 rounds, then add the incoming state
back in componentwise modulo 2 to the 32. -/
def md5Block (st : Nat × Nat × Nat × Nat) (block : List Nat) :
    Nat × Nat × Nat × Nat :=
  let M := wordsOf block
  let r := (List.range 64).foldl (md5Round M) st
  (u32 (st.1 + r.1), u32 (st.2.1 + r.2.1),
   u32 (st.2.2.1 + r.2.2.1), u32 (st.2.2.2 + r.2.2.2))

/-- Split a byte list into 64-byte chunks; the fuel argument bounds
the recursion by the list length so that the recursion is structural. -/
def chunks64Aux : Nat → List Nat → List (List Nat)
  | 0, _ => []
  | _, [] => []
  | fuel + 1, c :: rest =>
    ((c :: rest).take 64) :: chunks64Aux fuel ((c :: rest).drop 64)

/-- Split a byte list into 64-byte chunks. -/
def chunks64 (l : List Nat) : List (List Nat) := chunks64Aux l.length l

/-- The eight little-endian bytes of the 64-bit message bit length. -/
def lenBytesLE (v : Nat) : List Nat :=
  (List.range 8).map (fun k => v / 256 ^ k % 256)

/-- MD5 padding: a 0x80 byte, zeros to 56 modulo 64, then the bit
length in 64 bits little-endian. -/
def md5Pad (msg : List Nat) : List Nat :=
  let n := msg.length
  msg ++ 128 :: List.replicate ((119 - n % 64) % 64) 0 ++
    lenBytesLE (8 * n % 18446744073709551616)

/-- The final MD5 state over a byte message. -/
def md5State (msg : List Nat) : Nat × Nat × Nat × Nat :=
  (chunks64 (md5Pad msg)).foldl md5Block
    (1732584193, 4023233417, 2562383102, 271733878)

/-- The first eight hex digits of the MD5 hexdigest read as an
integer: the first four digest bytes, which are the little-endian
bytes of the final A word, in big-endian hex order. -/
def md5First8 (msg : List Nat) : Nat :=
  (md5State msg).1 % 256 * 16777216 + (md5State msg).1 / 256 % 256 * 65536 +
    (md5State msg).1 / 65536 % 256 * 256 + (md5State msg).1 / 16777216 % 256

/-- UTF-8 encoding of one character, as Python str.encode produces. -/
def utf8Char (c : Char) : List Nat :=
  let n := c.toNat
  if n < 128 then [n]
  else if n < 2048 then [192 + n / 64, 128 + n % 64]
  else if n < 65536 then
    [224 + n / 4096, 128 + n / 64 % 64, 128 + n % 64]
  else
    [240 + n / 262144, 128 + n / 4096 % 64, 128 + n / 64 % 64, 128 + n % 64]

/-- UTF-8 byte list of a string. -/
def strBytes (s : String) : List Nat :=
  s.data.foldr (fun c acc => utf8Char c ++ acc) []

/-! ## Deterministic jitter

Embeds vary and its hash normalization (daily_dashboard.py lines
177..181).  Python float arithmetic is modelled by exact rationals;
Python round is round-half-to-even. -/

/-- Python round on a rational: nearest integer, ties to even. -/
def pyRound (q : ℚ) : ℤ :=
  let f := q.floor
  if q - f < 1 / 2 then f
  else if 1 / 2 < q - f then f + 1
  else if f % 2 = 0 then f else f + 1

/-- The normalized hash fraction: the first eight hex digits of the
MD5 of the seed string day-dash-category, divided by 0xFFFFFFFF. -/
def fracOf (day category : String) : ℚ :=
  (md5First8 (strBytes (day ++ "-" ++ category)) : ℚ) / 4294967295

/-- The jitter offset: the fraction shifted to be centred at zero and
scaled by 0.4. -/
def offsetOf (day category : String) : ℚ :=
  (fracOf day category - 1 / 2) * (2 / 5)

/-- The jitter function vary: the base rate scaled by one plus the
offset, rounded, floored at zero.  The day argument is the ISO string
of the date, exactly the text hashed by the code. -/
def vary (avg : ℚ) (day category : String) : ℤ :=
  max 0 (pyRound (avg * (1 + offsetOf day category)))

/-! ## Calendar dates

Python datetime values at midnight are modelled by their proleptic
Gregorian ordinal (Python toordinal: 0001-01-01 is day 1).  The
synthesizer needs both directions of the civil conversion: ordinals
are compared and shifted, and isoformat renders the civil date. -/

/-- Gregorian leap-year test. -/
def isLeapYear (y : Nat) : Bool :=
  y % 4 = 0 && (y % 100 ≠ 0 || y % 400 = 0)

/-- Days in a month of a given year. -/
def daysInMonth (y m : Nat) : Nat :=
  if m = 2 then (if isLeapYear y then 29 else 28)
  else if m = 4 || m = 6 || m = 9 || m = 11 then 30
  else 31

/-- Days in the months before month m of year y. -/
def daysBeforeMonth (y m : Nat) : Nat :=
  (((List.range 12).map (fun i => daysInMonth y (i + 1))).take (m - 1)).sum

/-- Python date.toordinal of a civil date. -/
def toOrdinal (y m d : Nat) : Nat :=
  365 * (y - 1) + ((y - 1) / 4 + (y - 1) / 400 - (y - 1) / 100) +
    daysBeforeMonth y m + d

/-- A civil date. -/
structure PyDate where
  year : Nat
  month : Nat
  day : Nat
deriving DecidableEq, Repr

/-- Civil date of a Python ordinal (inverse of toOrdinal on valid
dates), by the standard era-based conversion. -/
def ordToDate (n : Nat) : PyDate :=
  let z := n + 305
  let era := z / 146097
  let doe := z % 146097
  let yoe := (doe - doe / 1460 + doe / 36524 - doe / 146096) / 365
  let y := yoe + era * 400
  let doy := doe - (365 * yoe + yoe / 4 - yoe / 100)
  let mp := (5 * doy + 2) / 153
  let d := doy - (153 * mp + 2) / 5 + 1
  let m := if mp < 10 then mp + 3 else mp - 9
  ⟨if m ≤ 2 then y + 1 else y, m, d⟩

/-- Decimal rendering zero-padded to two digits. -/
def pad2 (n : Nat) : String :=
  if n < 10 then "0" ++ toString n else toString n

/-- Decimal rendering zero-padded to four digits. -/
def pad4 (n : Nat) : String :=
  if n < 10 then "000" ++ toString n
  else if n < 100 then "00" ++ toString n
  else if n < 1000 then "0" ++ toString n
  else toString n

/-- Python datetime.isoformat of the midnight datetime with the given
ordinal. -/
def isoOfOrd (n : Nat) : String :=
  let dt := ordToDate n
  pad4 dt.year ++ "-" ++ pad2 dt.month ++ "-" ++ pad2 dt.day ++ "T00:00:00"

/-- Python strftime %a weekday abbreviation for an ordinal; ordinal 1
(0001-01-01) is a Monday. -/
def weekdayAbbrev (n : Nat) : String :=
  (["Mon", "Tue", "Wed", "Thu", "Fri", "Sat", "Sun"].getD ((n - 1) % 7) "")

/-! ## Monthly records and daily rates

Embeds the record and rate dictionaries of the synthesizer
(_fetch_eaddress_resource, _build_daily_rates and the deactivation
loop of get_eaddress_data, daily_dashboard.py lines 105..174). -/

/-- A parsed monthly record: date ordinal, display label, and the two
category counts. -/
structure MonthlyRecord where
  date : Nat
  label : String
  fiziska : ℤ
  juridiska : ℤ
deriving DecidableEq, Repr

/-- A derived daily rate for the period starting at date. -/
structure DailyRate where
  date : Nat
  fiziska : ℤ
  juridiska : ℤ
deriving DecidableEq, Repr

/-- Python x or d for an integer x and truthy default d: d when x is
zero, x otherwise. -/
def pyOrInt (x d : ℤ) : ℤ := if x = 0 then d else x

/-- The activation divisor: the day difference of an adjacent record
pair, replaced by 1 when it is zero (source: days_diff or 1). -/
def actDaysDiff (prev curr : MonthlyRecord) : ℤ :=
  pyOrInt ((curr.date : ℤ) - prev.date) 1

/-- Embeds _build_daily_rates: one daily rate per adjacent pair of
monthly records, rates rounded from the count difference divided by
the day difference. -/
def buildDailyRates (all : List MonthlyRecord) : List DailyRate :=
  (all.zip all.tail).map (fun pr =>
    { date := pr.2.date,
      fiziska := pyRound ((pr.2.fiziska - pr.1.fiziska : ℚ) / (actDaysDiff pr.1 pr.2 : ℚ)),
      juridiska := pyRound ((pr.2.juridiska - pr.1.juridiska : ℚ) / (actDaysDiff pr.1 pr.2 : ℚ)) })

/-- The deactivation divisor: days to the next record, replaced by 30
when zero, and 30 when there is no next record. -/
def deactDays (curr : MonthlyRecord) : Option MonthlyRecord → ℤ
  | some nr => pyOrInt ((nr.date : ℤ) - curr.date) 30
  | none => 30

/-- Each list element together with its successor when one exists. -/
def withNext (l : List MonthlyRecord) : List (MonthlyRecord × Option MonthlyRecord) :=
  l.zip (l.tail.map some ++ [none])

/-- Embeds the deactivation-rate loop of get_eaddress_data: monthly
counts divided by the days in the month, rounded. -/
def buildDeactRates (records : List MonthlyRecord) : List DailyRate :=
  (withNext records).map (fun pr =>
    { date := pr.1.date,
      fiziska := pyRound ((pr.1.fiziska : ℚ) / (deactDays pr.1 pr.2 : ℚ)),
      juridiska := pyRound ((pr.1.juridiska : ℚ) / (deactDays pr.1 pr.2 : ℚ)) })

/-! ## Rate lookup

Embeds _find_rate (daily_dashboard.py lines 183..192). -/

/-- The fallback values: the last rate record's values, or zeros when
the list is empty. -/
def lastRateValues (rates : List DailyRate) : ℤ × ℤ :=
  match rates.getLast? with
  | some r => (r.fiziska, r.juridiska)
  | none => (0, 0)

/-- First element of the list whose date is at most the target day. -/
def findFirstLE : List DailyRate → Nat → Option DailyRate
  | [], _ => none
  | r :: rest, day => if r.date ≤ day then some r else findFirstLE rest day

/-- Embeds _find_rate: scan the rates reversed, stop at the first
record whose date is at most the day, else fall back to the last
record's values, or zeros when empty. -/
def findRate (rates : List DailyRate) (day : Nat) : ℤ × ℤ :=
  match findFirstLE rates.reverse day with
  | some r => (r.fiziska, r.juridiska)
  | none => lastRateValues rates

/-! ## Streak construction

Embeds the 7-day streak loop of get_eaddress_data (lines 195..217). -/

/-- One streak entry: weekday label, jittered activation and
deactivation rates and their difference. -/
structure StreakEntry where
  date : String
  activated : ℤ
  deactivated : ℤ
  net : ℤ
deriving DecidableEq, Repr

/-- The fiziska and juridiska streak entries of one day. -/
def streakDay (actRates deactRates : List DailyRate) (dayOrd : Nat) :
    StreakEntry × StreakEntry :=
  let act := findRate actRates dayOrd
  let deact := findRate deactRates dayOrd
  let iso := isoOfOrd dayOrd
  let aFiz := vary (act.1 : ℚ) iso "fiz"
  let aJur := vary (act.2 : ℚ) iso "jur"
  let dFiz := vary (deact.1 : ℚ) iso "deact_fiz"
  let dJur := vary (deact.2 : ℚ) iso "deact_jur"
  (⟨weekdayAbbrev dayOrd, aFiz, dFiz, aFiz - dFiz⟩,
   ⟨weekdayAbbrev dayOrd, aJur, dJur, aJur - dJur⟩)

/-- The two 7-entry streaks for the seven days strictly before today,
oldest first. -/
def buildStreaks (actRates deactRates : List DailyRate) (todayOrd : Nat) :
    List StreakEntry × List StreakEntry :=
  let days := (List.range 7).map (fun i => todayOrd - (7 - i))
  (days.map (fun d => (streakDay actRates deactRates d).1),
   days.map (fun d => (streakDay actRates deactRates d).2))

/-! ## Statistics-resource row parsing

Embeds the per-row parsing of _fetch_eaddress_resource
(daily_dashboard.py lines 105..127). -/

/-- A raw API row: the date string and the two count fields, each
possibly absent. -/
structure RawRow where
  datums : Option String
  fiziska : Option String
  juridiska : Option String
deriving DecidableEq, Repr

/-- Digit value of an ASCII digit character. -/
def digitVal (c : Char) : Nat := c.toNat - 48

/-- Accumulate further digits of a Python integer literal, allowing a
single underscore between digits. -/
def moreDigits : Nat → List Char → Option Nat
  | acc, [] => some acc
  | acc, '_' :: d :: rest =>
    if isDigitCh d then moreDigits (acc * 10 + digitVal d) rest else none
  | _, ['_'] => none
  | acc, d :: rest =>
    if isDigitCh d then moreDigits (acc * 10 + digitVal d) rest else none

/-- Python int over a digit sequence: nonempty, underscores only
between digits. -/
def natFromDigits : List Char → Option Nat
  | d :: rest => if isDigitCh d then moreDigits (digitVal d) rest else none
  | [] => none

/-- Python int applied to a string: surrounding whitespace and an
optional sign, then digits. -/
def pyInt (s : String) : Option ℤ :=
  let cs := ((s.data.dropWhile isSpaceCh).reverse.dropWhile isSpaceCh).reverse
  match cs with
  | '+' :: rest => (natFromDigits rest).map (fun n => (n : ℤ))
  | '-' :: rest => (natFromDigits rest).map (fun n => -(n : ℤ))
  | rest => (natFromDigits rest).map (fun n => (n : ℤ))

/-- Python strptime with format %Y-%m-%d: exactly four year digits,
one or two month and day digits, dashes between, the whole string
consumed, and the civil date valid; gives the date's ordinal. -/
def parseYMD (cs : List Char) : Option Nat :=
  let ys := cs.takeWhile isDigitCh
  let r1 := cs.drop ys.length
  if ys.length ≠ 4 then none
  else
    match r1 with
    | '-' :: r2 =>
      let ms := r2.takeWhile isDigitCh
      let r3 := r2.drop ms.length
      if ms.length = 0 ∨ 2 < ms.length then none
      else
        match r3 with
        | '-' :: r4 =>
          let ds := r4.takeWhile isDigitCh
          let r5 := r4.drop ds.length
          if ds.length = 0 ∨ 2 < ds.length ∨ ¬ r5.isEmpty then none
          else
            match natFromDigits ys, natFromDigits ms, natFromDigits ds with
            | some y, some m, some d =>
              if 1 ≤ y ∧ 1 ≤ m ∧ m ≤ 12 ∧ 1 ≤ d ∧ d ≤ daysInMonth y m then
                some (toOrdinal y m d)
              else none
            | _, _, _ => none
        | _ => none
    | _ => none

/-- The date parse of a row: the first ten characters of the date
string through strptime %Y-%m-%d. -/
def parseDate10 (s : String) : Option Nat := parseYMD (s.data.take 10)

/-- Month abbreviations for strftime %b. -/
def monthAbbrev (m : Nat) : String :=
  (["Jan", "Feb", "Mar", "Apr", "May", "Jun",
    "Jul", "Aug", "Sep", "Oct", "Nov", "Dec"].getD (m - 1) "")

/-- The display label strftime %b %Y of an ordinal. -/
def labelOfOrd (n : Nat) : String :=
  monthAbbrev (ordToDate n).month ++ " " ++ toString (ordToDate n).year

/-- Per-row parsing of _fetch_eaddress_resource: a missing or
unparseable date skips the row, a missing count defaults to zero, a
present count that int cannot parse raises ValueError and skips the
row. -/
def parseRow (r : RawRow) : Option MonthlyRecord :=
  match r.datums with
  | none => none
  | some ds =>
    match parseDate10 ds with
    | none => none
    | some ord =>
      match (match r.fiziska with | none => some 0 | some s => pyInt s) with
      | none => none
      | some f =>
        match (match r.juridiska with | none => some 0 | some s => pyInt s) with
        | none => none
        | some j => some ⟨ord, labelOfOrd ord, f, j⟩

/-- All successfully parsed rows, in order. -/
def parseRecords (rows : List RawRow) : List MonthlyRecord :=
  rows.filterMap parseRow

/-! ## Fallback essence extraction

Embeds _regex_extract_essence (daily_dashboard.py lines 271..298).
The three section patterns and the three reference-shortening
substitutions are hand-compiled: a lazy dot-star followed by a
literal matches at the leftmost occurrence of the literal, a greedy
whitespace-star before a non-space literal matches the maximal
whitespace run, and a lazy capture before a lookahead stops at the
earliest position where the lookahead matches (a Python dollar
matches at the end or before a single final newline). -/

/-- Python regex word class for the Latin ranges the dashboard's data
draws from: ASCII alphanumerics, underscore, Latin-1 and Latin
Extended-A letters. -/
def isWordCh (c : Char) : Bool :=
  isDigitCh c || ('a' ≤ c && c ≤ 'z') || ('A' ≤ c && c ≤ 'Z') || c = '_' ||
    (192 ≤ c.toNat && c.toNat ≤ 383 && c.toNat ≠ 215 && c.toNat ≠ 247)

/-- Strip leading and trailing whitespace from a character list. -/
def stripChars (cs : List Char) : List Char :=
  ((cs.dropWhile isSpaceCh).reverse.dropWhile isSpaceCh).reverse

/-- Collapse whitespace runs to single spaces, the substitution of
whitespace-plus by one space; the flag records whether the previous
character was whitespace. -/
def collapseWsAux : Bool → List Char → List Char
  | _, [] => []
  | prevWs, c :: t =>
    if isSpaceCh c then
      if prevWs then collapseWsAux true t else ' ' :: collapseWsAux true t
    else c :: collapseWsAux false t

/-- Whitespace collapsing over a character list. -/
def collapseWs (cs : List Char) : List Char := collapseWsAux false cs

/-- The suffix after the leftmost occurrence of a literal pattern, if
any; models a lazy dot-star followed by the literal. -/
def afterFirst : List Char → List Char → Option (List Char)
  | s, pat =>
    if pat.isPrefixOf s then some (s.drop pat.length)
    else
      match s with
      | [] => none
      | _ :: t => afterFirst t pat

/-- The lookahead of the first section pattern: digit 1, a dot, then
a digit; or the dollar (end of text or a single final newline). -/
def isStopNum (s : List Char) : Bool :=
  match s with
  | [] => true
  | ['\n'] => true
  | '1' :: '.' :: d :: _ => isDigitCh d
  | _ => false

/-- Lazy capture up to the earliest position where the stop predicate
holds. -/
def captureUntil (stop : List Char → Bool) : List Char → List Char
  | [] => []
  | c :: t => if stop (c :: t) then [] else c :: captureUntil stop t

/-- The first section pattern of _regex_extract_essence: literal
1.1., whitespace, Pamatojums, lazily up to Apraksts, whitespace, then
the capture, stopped by 1.digit or the dollar. -/
def scanPamatojums : List Char → Option (List Char)
  | [] => none
  | s@(_ :: t) =>
    (if "1.1.".data.isPrefixOf s then
      (let s1 := (s.drop 4).dropWhile isSpaceCh
       if "Pamatojums".data.isPrefixOf s1 then
         match afterFirst (s1.drop 10) "Apraksts".data with
         | some s2 => some (captureUntil isStopNum (s2.dropWhile isSpaceCh))
         | none => scanPamatojums t
       else scanPamatojums t)
     else scanPamatojums t)

/-- The stop set of the second section pattern: literal Spēkā, the
1.digit lookahead, or the dollar. -/
def isStopMerkis (s : List Char) : Bool :=
  "Spēkā".data.isPrefixOf s || isStopNum s

/-- The second section pattern: literal 1.2., whitespace, Mērķis,
lazily up to Mērķa apraksts, whitespace, then the capture, stopped by
Spēkā, 1.digit or the dollar. -/
def scanMerkis : List Char → Option (List Char)
  | [] => none
  | s@(_ :: t) =>
    (if "1.2.".data.isPrefixOf s then
      (let s1 := (s.drop 4).dropWhile isSpaceCh
       if "Mērķis".data.isPrefixOf s1 then
         match afterFirst (s1.drop 6) "Mērķa apraksts".data with
         | some s2 => some (captureUntil isStopMerkis (s2.dropWhile isSpaceCh))
         | none => scanMerkis t
       else scanMerkis t)
     else scanMerkis t)

/-- The stop set of the third section pattern: literal Vai ir, the
1.digit lookahead, or the dollar. -/
def isStopRisinajums (s : List Char) : Bool :=
  "Vai ir".data.isPrefixOf s || isStopNum s

/-- The third section pattern: literal Risinājuma apraksts,
whitespace, then the capture, stopped by Vai ir, 1.digit or the
dollar. -/
def scanRisinajums (s : List Char) : Option (List Char) :=
  match afterFirst s "Risinājuma apraksts".data with
  | some s1 => some (captureUntil isStopRisinajums (s1.dropWhile isSpaceCh))
  | none => none

/-- The per-section post-processing: collapse whitespace, strip, keep
only non-empty chunks, truncate to 500 characters. -/
def sectionChunk (cap : List Char) : Option (List Char) :=
  let chunk := stripChars (collapseWs cap)
  if chunk.isEmpty then none else some (chunk.take 500)

/-- The joined section text before reference shortening. -/
def joinedSections (text : List Char) : List Char :=
  let chunks := ([scanPamatojums text, scanMerkis text, scanRisinajums text].filterMap
    (fun o => o.bind sectionChunk))
  if chunks.isEmpty then []
  else (String.intercalate " | " (chunks.map String.mk)).data

/-- Consume the tail of the quoted-titles group after one complete
quoted string: repeated whitespace-then-quoted-string iterations,
then the final whitespace run (a failed iteration is not taken, but
the final whitespace-star still consumes the whitespace it scanned);
gives the suffix after the consumed span. -/
def quotedTail : Nat → List Char → List Char
  | 0, s => s
  | fuel + 1, s =>
    let s1 := s.dropWhile isSpaceCh
    match s1 with
    | '"' :: r =>
      let content := r.takeWhile (fun c => c ≠ '"')
      (match r.drop content.length with
       | '"' :: r2 => quotedTail fuel r2
       | _ => s1)
    | _ => s1

/-- The whole optional quoted-titles group: when an opening quote
with a closing quote follows, consume the first quoted string, then
repeated whitespace-quoted strings, then trailing whitespace;
otherwise consume nothing. -/
def quoteGroup (s : List Char) : List Char :=
  match s with
  | '"' :: r =>
    let content := r.takeWhile (fun c => c ≠ '"')
    (match r.drop content.length with
     | '"' :: r2 => quotedTail r2.length r2
     | _ => s)
  | _ => s

/-- Match one to two digits followed by a dot, greedily; gives the
suffix after the dot. -/
def digits12Dot : List Char → Option (List Char)
  | a :: b :: r =>
    if isDigitCh a && isDigitCh b then
      (match r with
       | '.' :: r2 => some r2
       | _ => none)
    else if isDigitCh a && b = '.' then some r
    else none
  | _ => none

/-- Backtracking search for the group tail of the first reference
pattern: give back word characters from the maximal run until
whitespace then the literal Nr. follows; k is the number of word
characters kept. -/
def findNrTail : Nat → List Char → Option (Nat × List Char)
  | k, s =>
    let rest := (s.drop k).dropWhile isSpaceCh
    if "Nr.".data.isPrefixOf rest then some (k, rest.drop 3)
    else
      match k with
      | 0 => none
      | k' + 1 => findNrTail k' s

/-- Try the first reference pattern at the head of the suffix:
literal Ministru kabineta, four digits, dot, literal gada, one or two
digits, dot, whitespace, a word, whitespace, one of the stems
noteikum, rīkojum, instrukcij with a word tail, whitespace, Nr.,
whitespace, a non-space run, whitespace and optional quoted titles.
Gives the remaining suffix and the two groups. -/
def tryMK (s : List Char) : Option (List Char × List Char × List Char) :=
  if "Ministru kabineta ".data.isPrefixOf s then
    let s1 := s.drop 18
    match s1 with
    | y1 :: y2 :: y3 :: y4 :: '.' :: r1 =>
      if isDigitCh y1 && isDigitCh y2 && isDigitCh y3 && isDigitCh y4 then
        if " gada ".data.isPrefixOf r1 then
          match digits12Dot (r1.drop 6) with
          | some r2 =>
            let r3 := r2.dropWhile isSpaceCh
            let w := r3.takeWhile isWordCh
            if w.isEmpty then none
            else
              let r4 := r3.drop w.length
              let ws2 := r4.takeWhile isSpaceCh
              if ws2.isEmpty then none
              else
                let r5 := r4.drop ws2.length
                let stem := if "noteikum".data.isPrefixOf r5 then some "noteikum".data
                  else if "rīkojum".data.isPrefixOf r5 then some "rīkojum".data
                  else if "instrukcij".data.isPrefixOf r5 then some "instrukcij".data
                  else none
                match stem with
                | none => none
                | some st =>
                  let r6 := r5.drop st.length
                  let wtail := r6.takeWhile isWordCh
                  match findNrTail wtail.length r6 with
                  | none => none
                  | some (k, r7) =>
                    let g1 := st ++ r6.take k
                    let r8 := r7.dropWhile isSpaceCh
                    let g2 := r8.takeWhile (fun c => !isSpaceCh c)
                    if g2.isEmpty then none
                    else
                      let r9 := (r8.drop g2.length).dropWhile isSpaceCh
                      some (quoteGroup r9, g1, g2)
          | none => none
        else none
      else none
    | _ => none
  else none

/-- The substitution of the first reference pattern over the whole
text: each match is replaced by MK, the kind group, Nr. with a
non-breaking space, the number group and a trailing space. -/
def subMK : Nat → List Char → List Char
  | 0, s => s
  | _ + 1, [] => []
  | fuel + 1, c :: t =>
    match tryMK (c :: t) with
    | some (rest, g1, g2) =>
      "MK ".data ++ g1 ++ " Nr.".data ++ [' '] ++ g2 ++ [' '] ++ subMK fuel rest
    | none => c :: subMK fuel t

/-- Try the parenthetical-definition pattern at the head of the
suffix: literal open-paren turpmāk, whitespace, an en dash,
whitespace, then the non-empty group up to the closing paren. -/
def tryTurpmak (s : List Char) : Option (List Char × List Char) :=
  if "(turpmāk".data.isPrefixOf s then
    let s1 := (s.drop 8).dropWhile isSpaceCh
    match s1 with
    | '–' :: r1 =>
      let r2 := r1.dropWhile isSpaceCh
      let g1 := r2.takeWhile (fun c => c ≠ ')')
      if g1.isEmpty then none
      else
        match r2.drop g1.length with
        | ')' :: rest => some (rest, g1)
        | _ => none
    | _ => none
  else none

/-- The substitution collapsing hereinafter-definitions: open-paren
turpmāk dash X close-paren becomes open-paren X close-paren. -/
def subTurpmak : Nat → List Char → List Char
  | 0, s => s
  | _ + 1, [] => []
  | fuel + 1, c :: t =>
    match tryTurpmak (c :: t) with
    | some (rest, g1) => '(' :: g1 ++ [')'] ++ subTurpmak fuel rest
    | none => c :: subTurpmak fuel t

/-- Try the year-reference pattern at the head of the suffix: four
digits, dot, literal gada, one or two digits, dot, whitespace, a
word, whitespace, a stem likum or noteikum with its word tail, then
whitespace and optional quoted titles. -/
def tryGada (s : List Char) : Option (List Char × List Char) :=
  match s with
  | y1 :: y2 :: y3 :: y4 :: '.' :: r1 =>
    if isDigitCh y1 && isDigitCh y2 && isDigitCh y3 && isDigitCh y4 then
      if " gada ".data.isPrefixOf r1 then
        match digits12Dot (r1.drop 6) with
        | some r2 =>
          let r3 := r2.dropWhile isSpaceCh
          let w := r3.takeWhile isWordCh
          if w.isEmpty then none
          else
            let r4 := r3.drop w.length
            let ws2 := r4.takeWhile isSpaceCh
            if ws2.isEmpty then none
            else
              let r5 := r4.drop ws2.length
              let stem := if "likum".data.isPrefixOf r5 then some "likum".data
                else if "noteikum".data.isPrefixOf r5 then some "noteikum".data
                else none
              match stem with
              | none => none
              | some st =>
                let r6 := r5.drop st.length
                let wtail := r6.takeWhile isWordCh
                let g1 := st ++ wtail
                let r7 := (r6.drop wtail.length).dropWhile isSpaceCh
                some (quoteGroup r7, g1)
        | none => none
      else none
    else none
  | _ => none

/-- The substitution of the year-reference pattern: each match is
replaced by its kind group and a trailing space. -/
def subGada : Nat → List Char → List Char
  | 0, s => s
  | _ + 1, [] => []
  | fuel + 1, c :: t =>
    match tryGada (c :: t) with
    | some (rest, g1) => g1 ++ [' '] ++ subGada fuel rest
    | none => c :: subGada fuel t

/-- Embeds _regex_extract_essence: extract and join the three
sections, shorten cabinet-regulation references, collapse
hereinafter-definitions, shorten year references, and strip. -/
def regexExtractEssence (text : String) : String :=
  let joined := joinedSections text.data
  let e1 := subMK joined.length joined
  let e2 := subTurpmak e1.length e1
  let e3 := subGada e2.length e2
  String.mk (stripChars e3)

/-! ## Hybrid essence extraction

Embeds _extract_essence (daily_dashboard.py lines 301..309). -/

/-- Embeds _extract_essence: when the generative backend is available
and the cleaned text is longer than 200 characters, attempt the
backend, whose outcome is modelled by an Option (none for a raised
error), falling back to the pattern extractor on failure; otherwise
run the pattern extractor directly. -/
def extractEssence (hasAnthropic : Bool) (aiResult : Option String)
    (cleaned legalAct : String) : String :=
  if hasAnthropic && decide (200 < cleaned.length) then
    match aiResult with
    | some t => t
    | none => regexExtractEssence cleaned
  else regexExtractEssence cleaned

/-! ## Cabinet agenda scraper

Embeds get_cabinet_cudars_items (daily_dashboard.py lines 312..474)
over a fetch oracle: some body for a successful GET, none for a
raised request error.  The generative backend is an oracle from the
annotation and legal-act texts to an optional response. -/

/-- Case-insensitive prefix test; the pattern is given lower-cased. -/
def prefixCI (pat s : List Char) : Bool :=
  pat.isPrefixOf ((s.take pat.length).map pyLower)

/-- Case-insensitive substring test; the pattern is given
lower-cased. -/
def containsCI : List Char → List Char → Bool
  | [], pat => pat.isEmpty
  | s@(_ :: t), pat => prefixCI pat s || containsCI t pat

/-- Generic leftmost non-overlapping substitution: at each position
try the matcher, emit its replacement and continue after the match,
otherwise keep the character; fuel bounds the recursion by the text
length. -/
def subAll (try_ : List Char → Option (List Char × List Char)) :
    Nat → List Char → List Char
  | 0, s => s
  | _ + 1, [] => []
  | fuel + 1, c :: t =>
    match try_ (c :: t) with
    | some (repl, rest) => repl ++ subAll try_ fuel rest
    | none => c :: subAll try_ fuel t

/-- A tag match: an angle bracket, one or more non-closing
characters, a closing angle bracket; replaced by the given text. -/
def tryTag (repl : List Char) (s : List Char) : Option (List Char × List Char) :=
  match s with
  | '<' :: t =>
    let inner := t.takeWhile (fun c => c ≠ '>')
    if inner.isEmpty then none
    else
      (match t.drop inner.length with
       | '>' :: r => some (repl, r)
       | _ => none)
  | _ => none

/-- An HTML entity match: ampersand, word characters, semicolon;
replaced by a space. -/
def tryEntity (s : List Char) : Option (List Char × List Char) :=
  match s with
  | '&' :: t =>
    let w := t.takeWhile isWordCh
    if w.isEmpty then none
    else
      (match t.drop w.length with
       | ';' :: r => some ([' '], r)
       | _ => none)
  | _ => none

/-- The suffix after the earliest case-insensitive occurrence of the
pattern. -/
def findCloseCI (pat : List Char) : Nat → List Char → Option (List Char)
  | 0, _ => none
  | fuel + 1, s =>
    if prefixCI pat s then some (s.drop pat.length)
    else
      match s with
      | [] => none
      | _ :: t => findCloseCI pat fuel t

/-- A script or style block: the opening tag name, any non-closing
characters, the closing bracket, then lazily up to the closing tag,
case-insensitively; replaced by the given text. -/
def tryBlock (openPat closePat repl : List Char) (s : List Char) :
    Option (List Char × List Char) :=
  if prefixCI openPat s then
    let s1 := s.drop openPat.length
    let pre := s1.takeWhile (fun c => c ≠ '>')
    match s1.drop pre.length with
    | '>' :: s2 =>
      (findCloseCI closePat s2.length s2).map (fun rest => (repl, rest))
    | _ => none
  else none

/-- The annotation cleaning pipeline of the cabinet extractor:
script blocks and style blocks removed, tags to newlines, entities to
spaces, whitespace collapsed, stripped. -/
def cleanDocHtml (raw : String) : String :=
  let l0 := raw.data
  let l1 := subAll (tryBlock "<script".data "</script>".data []) l0.length l0
  let l2 := subAll (tryBlock "<style".data "</style>".data []) l1.length l1
  let l3 := subAll (tryTag ['\n']) l2.length l2
  let l4 := subAll tryEntity l3.length l3
  String.mk (stripChars (collapseWs l4))

/-- The protocol-document line list: the same cleaning without
whitespace collapsing, split at newlines, lines stripped, empty lines
dropped. -/
def protocolLines (raw : String) : List String :=
  let l0 := raw.data
  let l1 := subAll (tryBlock "<script".data "</script>".data []) l0.length l0
  let l2 := subAll (tryBlock "<style".data "</style>".data []) l1.length l1
  let l3 := subAll (tryTag ['\n']) l2.length l2
  let l4 := subAll tryEntity l3.length l3
  ((l4.splitOn '\n').map (fun l => String.mk (stripChars l))).filter
    (fun l => l ≠ "")

/-- Exactly n lower-case hex digits; gives the rest. -/
def hexChunk : Nat → List Char → Option (List Char)
  | 0, s => some s
  | n + 1, c :: t =>
    if isDigitCh c || ('a' ≤ c && c ≤ 'f') then hexChunk n t else none
  | _ + 1, [] => none

/-- A dash then exactly n lower-case hex digits. -/
def dashHexChunk (n : Nat) : List Char → Option (List Char)
  | '-' :: r => hexChunk n r
  | _ => none

/-- The UUID shape 8-4-4-4-12 of lower-case hex digits. -/
def uuidTail (s : List Char) : Option (List Char) :=
  (((hexChunk 8 s).bind (dashHexChunk 4)).bind (dashHexChunk 4)).bind
    (fun r => (dashHexChunk 4 r).bind (dashHexChunk 12))

/-- Try the meeting-row pattern at the head of the suffix: the
data-url attribute whose value is the cabinet-meetings path followed
by a UUID, closed by a quote; gives the captured path. -/
def tryMeetingURL (s : List Char) : Option String :=
  if ("data-url=\"/meetings/cabinet_ministers/").data.isPrefixOf s then
    let afterPre := s.drop 38
    match uuidTail afterPre with
    | some ('"' :: _) =>
      some (String.mk ("/meetings/cabinet_ministers/".data ++ afterPre.take 36))
    | _ => none
  else none

/-- The first meeting row carrying a UUID-shaped data-url path. -/
def findMeetingPathAux : List Char → Option String
  | [] => none
  | s@(_ :: t) =>
    match tryMeetingURL s with
    | some p => some p
    | none => findMeetingPathAux t

/-- Embeds the upcoming-meeting search of get_cabinet_cudars_items. -/
def findMeetingPath (html : String) : Option String :=
  findMeetingPathAux html.data

/-- Exactly n ASCII digits; gives the digits and the rest. -/
def digitsN : Nat → List Char → Option (List Char × List Char)
  | 0, s => some ([], s)
  | n + 1, c :: t =>
    if isDigitCh c then (digitsN n t).map (fun pr => (c :: pr.1, pr.2))
    else none
  | _ + 1, [] => none

/-- Try the displayed date pattern at the head of the suffix: two
digits, dot, two digits, dot, four digits, dot, whitespace, two
digits, colon, two digits, followed by the closing span tag; gives
the captured date text. -/
def tryDateSpan (s : List Char) : Option (List Char) :=
  match digitsN 2 s with
  | some (d1, '.' :: r1) =>
    (match digitsN 2 r1 with
     | some (d2, '.' :: r2) =>
       (match digitsN 4 r2 with
        | some (d3, '.' :: r3) =>
          (let ws := r3.takeWhile isSpaceCh
           match digitsN 2 (r3.drop ws.length) with
           | some (h, ':' :: r4) =>
             (match digitsN 2 r4 with
              | some (m, r5) =>
                if "</span>".data.isPrefixOf r5 then
                  some (d1 ++ '.' :: d2 ++ '.' :: d3 ++ '.' :: ws ++ h ++ ':' :: m)
                else none
              | none => none)
           | _ => none)
        | _ => none)
     | _ => none)
  | _ => none

/-- The earliest span-value occurrence whose content matches the date
pattern. -/
def findSpanDate : List Char → Option (List Char)
  | [] => none
  | s@(_ :: t) =>
    if ("<span class=\"flextable__value\">").data.isPrefixOf s then
      match tryDateSpan (s.drop ("<span class=\"flextable__value\">").data.length) with
      | some cap => some cap
      | none => findSpanDate t
    else findSpanDate t

/-- Scan for the given meeting row and extract the adjacent displayed
date text: the data-url literal, the rest of the opening tag, then
lazily the first span value holding a date. -/
def findMeetingDateAux (lit : List Char) : List Char → Option String
  | [] => none
  | s@(_ :: t) =>
    if lit.isPrefixOf s then
      (let afterLit := s.drop lit.length
       let pre := afterLit.takeWhile (fun c => c ≠ '>')
       match afterLit.drop pre.length with
       | '>' :: r =>
         (match findSpanDate r with
          | some cap => some (String.mk cap)
          | none => findMeetingDateAux lit t)
       | _ => findMeetingDateAux lit t)
    else findMeetingDateAux lit t

/-- Embeds the meeting-date extraction of get_cabinet_cudars_items. -/
def findMeetingDate (html path : String) : Option String :=
  findMeetingDateAux ("data-url=\"" ++ path ++ "\"").data html.data

/-- Lazy capture up to the earliest closing div followed by optional
whitespace and a second closing div; gives the capture and the suffix
after the second closing div. -/
def findDivDiv : List Char → Option (List Char × List Char)
  | [] => none
  | s@(c :: t) =>
    if "</div>".data.isPrefixOf s then
      (let after := s.drop 6
       let after2 := after.dropWhile isSpaceCh
       if "</div>".data.isPrefixOf after2 then some ([], after2.drop 6)
       else (findDivDiv t).map (fun pr => (c :: pr.1, pr.2)))
    else (findDivDiv t).map (fun pr => (c :: pr.1, pr.2))

/-- Try the section-heading pattern at the head of the suffix: the
section-row class name, the rest of the tag, then lazily the heading
body up to two closing divs; gives the body and the suffix after the
match. -/
def trySectionRow (s : List Char) : Option (List Char × List Char) :=
  if "meeting__section-row".data.isPrefixOf s then
    let s1 := s.drop 20
    let pre := s1.takeWhile (fun c => c ≠ '>')
    match s1.drop pre.length with
    | '>' :: s2 => findDivDiv s2
    | _ => none
  else none

/-- All section headings with their match offsets: at each offset try
the section pattern, record the cleaned heading text and the offset,
and continue after the match. -/
def extractSectionsAux : Nat → Nat → List Char → List AgendaSection
  | 0, _, _ => []
  | _ + 1, _, [] => []
  | fuel + 1, pos, s@(c :: t) =>
    match trySectionRow s with
    | some (cap, rest) =>
      ⟨String.mk (stripChars (subAll (tryTag []) cap.length cap)), pos⟩ ::
        extractSectionsAux fuel (pos + (s.length - rest.length)) rest
    | none =>
      let _ := c
      extractSectionsAux fuel (pos + 1) t

/-- Embeds the section extraction of get_cabinet_cudars_items. -/
def extractSections (html : String) : List AgendaSection :=
  extractSectionsAux html.data.length 0 html.data

/-- A cabinet agenda item; section, essence and decision start empty
and are filled by later steps. -/
structure CabinetItem where
  pos : Nat
  taLink : String
  taId : String
  title : String
  reporter : String
  sectionName : String
  essence : String
  decision : String
deriving DecidableEq, Repr

/-- The moved source constant BASE_URL. -/
def BASE_URL : String := "https://tapportals.mk.gov.lv"

/-- Try the document-link pattern at the head of the suffix: an href
to a legal act, the rest of the anchor tag, the non-empty anchor
text, the closing anchor tag; gives the captured path, the anchor
text and the suffix after the match. -/
def tryTALink (s : List Char) : Option (List Char × List Char × List Char) :=
  if ("href=\"/legal_acts/").data.isPrefixOf s then
    let afterPre := s.drop 18
    let g1tail := afterPre.takeWhile (fun c => c ≠ '"')
    if g1tail.isEmpty then none
    else
      match afterPre.drop g1tail.length with
      | '"' :: r1 =>
        (let pre := r1.takeWhile (fun c => c ≠ '>')
         match r1.drop pre.length with
         | '>' :: r2 =>
           (let g2 := r2.takeWhile (fun c => c ≠ '<')
            if g2.isEmpty then none
            else if "</a>".data.isPrefixOf (r2.drop g2.length) then
              some ("/legal_acts/".data ++ g1tail, g2, (r2.drop g2.length).drop 4)
            else none)
         | _ => none)
      | _ => none
  else none

/-- The question field inside a lookahead window: the column-header
literal then a non-empty run up to a tag. -/
def findJautajums : List Char → Option (List Char)
  | [] => none
  | s@(_ :: t) =>
    if ("data-column-header-name=\"Jautājums\">").data.isPrefixOf s then
      (let g := (s.drop 36).takeWhile (fun c => c ≠ '<')
       if g.isEmpty then findJautajums t else some g)
    else findJautajums t

/-- The reporter field inside a lookahead window: the column-header
literal, a span tag, then a possibly empty run up to the closing
span. -/
def findZino : List Char → Option (List Char)
  | [] => none
  | s@(_ :: t) =>
    if ("data-column-header-name=\"Ziņo\"><span").data.isPrefixOf s then
      (let r1 := s.drop 36
       let pre := r1.takeWhile (fun c => c ≠ '>')
       match r1.drop pre.length with
       | '>' :: r2 =>
         (let g := r2.takeWhile (fun c => c ≠ '<')
          if "</span>".data.isPrefixOf (r2.drop g.length) then some g
          else findZino t)
       | _ => findZino t)
    else findZino t

/-- All agenda items: at each document link, look ahead 1500
characters for the question and reporter fields and record the item
only when both are present. -/
def extractItemsAux : Nat → Nat → List Char → List CabinetItem
  | 0, _, _ => []
  | _ + 1, _, [] => []
  | fuel + 1, pos, s@(c :: t) =>
    match tryTALink s with
    | some (g1, g2, rest) =>
      let chunk := rest.take 1500
      let item? :=
        match findJautajums chunk, findZino chunk with
        | some jm, some zm =>
          [⟨pos, BASE_URL ++ String.mk g1, String.mk (stripChars g2),
            String.mk (stripChars jm), String.mk (stripChars zm), "", "", ""⟩]
        | _, _ => []
      item? ++ extractItemsAux fuel (pos + (s.length - rest.length)) rest
    | none =>
      let _ := c
      extractItemsAux fuel (pos + 1) t

/-- Embeds the item extraction of get_cabinet_cudars_items. -/
def extractItems (html : String) : List CabinetItem :=
  extractItemsAux html.data.length 0 html.data

/-- The reporter filter: the reporter text contains cudars with a c
or a hacek-c, case-insensitively. -/
def reporterMatchCudars (r : String) : Bool :=
  containsCI r.data "čudars".data || containsCI r.data "cudars".data

/-- The annotation link: an href to an annotation path. -/
def findAnnotationPath : List Char → Option String
  | [] => none
  | s@(_ :: t) =>
    if ("href=\"/annotation/").data.isPrefixOf s then
      (let tail := (s.drop 18).takeWhile (fun c => c ≠ '"')
       if tail.isEmpty then findAnnotationPath t
       else
         match (s.drop 18).drop tail.length with
         | '"' :: _ => some (String.mk ("/annotation/".data ++ tail))
         | _ => findAnnotationPath t)
    else findAnnotationPath t

/-- A structuralizer link whose anchor text contains one of the given
lower-cased words case-insensitively, as in the draft-act and
protocol-decision searches; gives the captured path. -/
def findStructLink (words : List (List Char)) : List Char → Option String
  | [] => none
  | s@(_ :: t) =>
    if prefixCI ("href=\"/structuralizer/").data s then
      (let afterPre := s.drop 22
       let tail := afterPre.takeWhile (fun c => c ≠ '"')
       if tail.isEmpty then findStructLink words t
       else
         match afterPre.drop tail.length with
         | '"' :: r1 =>
           (let pre := r1.takeWhile (fun c => c ≠ '>')
            match r1.drop pre.length with
            | '>' :: r2 =>
              (let txt := r2.takeWhile (fun c => c ≠ '<')
               if words.any (fun w => containsCI txt w) then
                 some (String.mk (("/structuralizer/").data ++ tail))
               else findStructLink words t)
            | _ => findStructLink words t)
         | _ => findStructLink words t)
    else findStructLink words t

/-- Per-item enrichment of get_cabinet_cudars_items step 7: fetch the
item's detail page, summarize the annotation (with the draft legal
act when present) into the essence, and extract the protocol
decision; a failed fetch of the legal act is swallowed, while any
other failed fetch ends the item's enrichment with the fields set so
far. -/
def enrichItem (fetch : String → Option String) (hasA : Bool)
    (ai : String → String → Option String) (item : CabinetItem) : CabinetItem :=
  match fetch item.taLink with
  | none => { item with essence := "", decision := "" }
  | some laHtml =>
    let anPath := findAnnotationPath laHtml.data
    let lmPath := findStructLink ["projekts".data, "grozījum".data] laHtml.data
    let legalActText :=
      match lmPath with
      | some p =>
        (match fetch (BASE_URL ++ p) with
         | some t => cleanDocHtml t
         | none => "")
      | none => ""
    let protocol (essence : String) : CabinetItem :=
      match findStructLink ["protokollēmum".data] laHtml.data with
      | some pp =>
        (match fetch (BASE_URL ++ pp) with
         | none => { item with essence := essence, decision := "" }
         | some pt =>
           { item with essence := essence,
                       decision := decisionFromLines (protocolLines pt) })
      | none => { item with essence := essence, decision := "" }
    match anPath with
    | some ap =>
      (match fetch (BASE_URL ++ ap) with
       | none => { item with essence := "", decision := "" }
       | some t =>
         protocol (extractEssence hasA (ai (cleanDocHtml t) legalActText)
           (cleanDocHtml t) legalActText))
    | none => protocol ""

/-- The cabinet extractor's result aggregate. -/
structure CabinetResult where
  meetingDate : String
  meetingUrl : String
  cudarsItems : List CabinetItem
  allSections : List String
deriving DecidableEq, Repr

/-- Embeds get_cabinet_cudars_items over the fetch oracle: locate the
next sitting in the meetings index, fetch its agenda, extract
sections and items, assign sections by offset, filter by reporter and
enrich the matches; a failed index fetch, a missing meeting row or a
failed agenda fetch yields none. -/
def getCabinetCudarsItems (fetch : String → Option String) (hasA : Bool)
    (ai : String → String → Option String) : Option CabinetResult :=
  match fetch (BASE_URL ++ "/meetings/cabinet_ministers") with
  | none => none
  | some html =>
    match findMeetingPath html with
    | none => none
    | some path =>
      let meetingUrl := BASE_URL ++ path
      let meetingDate := (findMeetingDate html path).getD "Unknown date"
      match fetch meetingUrl with
      | none => none
      | some agendaHtml =>
        let sections := extractSections agendaHtml
        let items := (extractItems agendaHtml).map
          (fun it => { it with sectionName := assignSection sections it.pos })
        let cudars := (items.filter (fun it => reporterMatchCudars it.reporter)).map
          (enrichItem fetch hasA ai)
        some { meetingDate := meetingDate, meetingUrl := meetingUrl,
               cudarsItems := cudars,
               allSections := sections.map (fun s => s.name) }

end DigiGov

namespace DigiGov

/-! ## Claim theorems for the parliament classifier -/

/-- C1 (counterexample).  The point VARAM par digitālajiem datiem
contains the ministry acronym, yet the code classifies it as a
content match, not a keyword match: match_type is content whenever at
least two topic stems occur, even when a ministry keyword is present.
This refutes the claim that a ministry hit yields a keyword match
regardless of topic-keyword count. -/
theorem classifyPoint_keyword_priority_fails :
    isKeywordHit (lowerStr "1. VARAM par digitālajiem datiem") = true ∧
    classifyPoint "1. VARAM par digitālajiem datiem" = some MatchKind.content := by
  decide

/-- C1 (amended).  For every agenda point: if at least two
digital-topic stems occur as substrings of the lower-cased point it
is classified as a content match, even when a ministry keyword is
also present; if a ministry-name variant or acronym occurs and fewer
than two topic stems occur it is classified as a keyword match; a
point containing exactly one topic keyword and no ministry keyword is
discarded. -/
theorem classifyPoint_spec (p : String) :
    (2 ≤ topicHitCount (lowerStr p) → classifyPoint p = some MatchKind.content) ∧
    (isKeywordHit (lowerStr p) = true → topicHitCount (lowerStr p) < 2 →
      classifyPoint p = some MatchKind.keyword) ∧
    (isKeywordHit (lowerStr p) = false → topicHitCount (lowerStr p) = 1 →
      classifyPoint p = none) := by
  refine ⟨fun h2 => ?_, fun hk h1 => ?_, fun hk h1 => ?_⟩
  · simp [classifyPoint, h2]
  · have : ¬ (2 ≤ topicHitCount (lowerStr p)) := by omega
    simp [classifyPoint, hk, this]
  · have : ¬ (2 ≤ topicHitCount (lowerStr p)) := by omega
    simp [classifyPoint, hk, this]

/-- C1 (witness).  The three branches of classifyPoint_spec at
concrete points. -/
theorem classifyPoint_spec_witness :
    classifyPoint "digitāl dati" = some MatchKind.content ∧
    classifyPoint "varam" = some MatchKind.keyword ∧
    classifyPoint "dati" = none :=
  ⟨(classifyPoint_spec "digitāl dati").1 (by decide),
   (classifyPoint_spec "varam").2.1 (by decide) (by decide),
   (classifyPoint_spec "dati").2.2 (by decide) (by decide)⟩

/-! ## Claim theorem for the protocol-decision extraction -/

/-- C2 (code bug).  On the synthetic document of the spec, the
extracted decision is 1.First clause. 2. Second clause. with no space
between the first bare ordinal and its clause, because the merge loop
appends the very first ordinal line without the trailing space it
gives to later ones.  The copyright line is excluded as claimed, but
the result differs from the documented 1. First clause. 2. Second
clause. (the source itself comments the merge as producing 1. Text),
so the code contradicts its own documentation here. -/
theorem decisionFromLines_spec_document :
    decisionFromLines
        ["12-TA-345 Some Title", "irrelevant", "1.", "First clause.",
         "2.", "Second clause.", "© Valsts ..."] =
      "1.First clause. 2. Second clause." ∧
    "1.First clause. 2. Second clause." ≠
      "1. First clause. 2. Second clause." := by
  constructor
  · rfl
  · decide

/-! ## Claim theorems for section assignment -/

/-- C3 (counterexample).  With sections A, B, C at offsets 0, 100,
250, an item at offset 10 is assigned section A, not Unknown: section
A's offset 0 is strictly below 10, so the reverse scan stops at A. -/
theorem assignSection_offset10_not_unknown :
    assignSection
        [⟨"A", 0⟩, ⟨"B", 100⟩, ⟨"C", 250⟩] 10 = "A" ∧
    assignSection
        [⟨"A", 0⟩, ⟨"B", 100⟩, ⟨"C", 250⟩] 10 ≠ "Unknown" := by
  constructor
  · rfl
  · decide

/-- C3 (amended).  Every item is assigned the first section, scanning
the section list in reverse, whose offset is strictly less than the
item's offset, defaulting to Unknown; for sections A, B, C at offsets
0, 100, 250, items at offsets 50, 150 and 300 map to A, B and C, an
item at offset 10 maps to A (section A at offset 0 strictly precedes
it), and an item at offset 0 maps to Unknown. -/
theorem assignSection_spec :
    (∀ (sections : List AgendaSection) (p : Nat),
      assignSection sections p =
        ((sections.reverse.find? (fun s => s.pos < p)).map
          (fun s => s.name)).getD "Unknown") ∧
    assignSection [⟨"A", 0⟩, ⟨"B", 100⟩, ⟨"C", 250⟩] 50 = "A" ∧
    assignSection [⟨"A", 0⟩, ⟨"B", 100⟩, ⟨"C", 250⟩] 150 = "B" ∧
    assignSection [⟨"A", 0⟩, ⟨"B", 100⟩, ⟨"C", 250⟩] 300 = "C" ∧
    assignSection [⟨"A", 0⟩, ⟨"B", 100⟩, ⟨"C", 250⟩] 10 = "A" ∧
    assignSection [⟨"A", 0⟩, ⟨"B", 100⟩, ⟨"C", 250⟩] 0 = "Unknown" := by
  refine ⟨fun sections p => ?_, rfl, rfl, rfl, rfl, rfl⟩
  unfold assignSection
  induction sections.reverse with
  | nil => rfl
  | cons s rest ih =>
    by_cases h : s.pos < p
    · simp [assignFromList, List.find?, h]
    · simp [assignFromList, List.find?, h, ih]

/-! ## Claim theorems for the deterministic jitter -/

/-- C4.  The synthesizer's streak output is a pure function of the
rate inputs and of today: two runs over equal inputs produce equal
StreakDay lists, and the jitter yields equal values whenever the ISO
date string and the category tag are equal, for any base rate. -/
theorem buildStreaks_deterministic :
    (∀ (a₁ a₂ d₁ d₂ : List DailyRate) (t₁ t₂ : Nat),
      a₁ = a₂ → d₁ = d₂ → t₁ = t₂ →
        buildStreaks a₁ d₁ t₁ = buildStreaks a₂ d₂ t₂) ∧
    (∀ (avg : ℚ) (day₁ cat₁ day₂ cat₂ : String),
      day₁ = day₂ → cat₁ = cat₂ →
        vary avg day₁ cat₁ = vary avg day₂ cat₂) := by
  constructor
  · intro a₁ a₂ d₁ d₂ t₁ t₂ ha hd ht
    rw [ha, hd, ht]
  · intro avg day₁ cat₁ day₂ cat₂ hd hc
    rw [hd, hc]

/-- C4 (witness).  The determinism statement applied at concrete
rates, a concrete today, and a concrete jitter input. -/
theorem buildStreaks_deterministic_witness :
    buildStreaks [⟨738552, 27, 3⟩] [⟨738521, 105, 8⟩] 738711 =
      buildStreaks [⟨738552, 27, 3⟩] [⟨738521, 105, 8⟩] 738711 ∧
    vary 100 "2026-10-05T00:00:00" "fiz" = vary 100 "2026-10-05T00:00:00" "fiz" :=
  ⟨buildStreaks_deterministic.1 _ _ _ _ _ _ rfl rfl rfl,
   buildStreaks_deterministic.2 100 _ _ _ _ rfl rfl⟩

/-- The first eight hex digits of an MD5 digest, as an integer, never
exceed 0xFFFFFFFF. -/
theorem md5First8_le (msg : List Nat) : md5First8 msg ≤ 4294967295 := by
  unfold md5First8
  omega

set_option maxRecDepth 100000

/-- C5 (counterexample).  The normalization divides by 0xFFFFFFFF,
one less than 2 to the 32, so the fraction reaches 1 exactly: for the
day string 2026-10-12T00:00:00 and the category string x2055146394
the MD5 digest begins ffffffff and the normalized fraction is not
below 1, refuting the claimed half-open range. -/
theorem fracOf_reaches_one :
    md5First8 (strBytes ("2026-10-12T00:00:00" ++ "-" ++ "x2055146394")) =
      4294967295 ∧
    ¬ (fracOf "2026-10-12T00:00:00" "x2055146394" < 1) := by
  have h : md5First8 (strBytes ("2026-10-12T00:00:00" ++ "-" ++ "x2055146394")) =
      4294967295 := by decide
  refine ⟨h, ?_⟩
  unfold fracOf
  rw [h]
  norm_num

/-- C5 (amended).  For every day string and category string the
normalized hash fraction lies in the closed interval from 0 to 1, the
derived offset lies in the closed interval from -0.2 to 0.2, and the
jittered rate is the base rate times one plus the offset, rounded and
floored at zero, hence never negative. -/
theorem vary_bounds (avg : ℚ) (day category : String) :
    0 ≤ fracOf day category ∧ fracOf day category ≤ 1 ∧
    -(1 / 5) ≤ offsetOf day category ∧ offsetOf day category ≤ 1 / 5 ∧
    vary avg day category = max 0 (pyRound (avg * (1 + offsetOf day category))) ∧
    0 ≤ vary avg day category := by
  have hb := md5First8_le (strBytes (day ++ "-" ++ category))
  have h0 : 0 ≤ fracOf day category := by
    unfold fracOf
    positivity
  have h1 : fracOf day category ≤ 1 := by
    unfold fracOf
    rw [div_le_one (by norm_num : (0 : ℚ) < 4294967295)]
    exact_mod_cast hb
  refine ⟨h0, h1, ?_, ?_, rfl, le_max_left 0 _⟩
  · unfold offsetOf
    nlinarith [h0, h1]
  · unfold offsetOf
    nlinarith [h0, h1]

/-! ## Claim theorem for the hybrid summarizer -/

/-- C7.  For every annotation text shorter than 200 characters the
hybrid extractor never attempts the generative path: whatever the
backend flag and the backend outcome, the result is exactly the
deterministic pattern-based fallback's result. -/
theorem extractEssence_short_uses_fallback (ha : Bool) (ai : Option String)
    (cleaned legalAct : String) (h : cleaned.length < 200) :
    extractEssence ha ai cleaned legalAct = regexExtractEssence cleaned := by
  have hnot : ¬ (200 < cleaned.length) := by omega
  simp [extractEssence, hnot]

/-- C7 (witness).  The fallback equality at a concrete short text
with the backend configured and available. -/
theorem extractEssence_short_uses_fallback_witness :
    extractEssence true (some "ai output") "īss teksts" "x" =
      regexExtractEssence "īss teksts" :=
  extractEssence_short_uses_fallback true (some "ai output") "īss teksts" "x"
    (by decide)

/-! ## Claim theorems for the rate lookup -/

/-- On a list whose dates are descending, findFirstLE returns the
first element with date at most the day, which then realizes the
maximum date among such elements; a none result means no element
qualifies. -/
theorem findFirstLE_spec (l : List DailyRate) (day : Nat)
    (hs : l.Pairwise (fun a b => b.date ≤ a.date)) :
    (∀ r, findFirstLE l day = some r →
      r ∈ l ∧ r.date ≤ day ∧ ∀ s ∈ l, s.date ≤ day → s.date ≤ r.date) ∧
    (findFirstLE l day = none → ∀ r ∈ l, day < r.date) := by
  induction l with
  | nil =>
    constructor
    · intro r h
      simp [findFirstLE] at h
    · intro _ r h
      exact absurd h (List.not_mem_nil r)
  | cons a rest ih =>
    obtain ⟨hhead, htail⟩ := List.pairwise_cons.mp hs
    by_cases hle : a.date ≤ day
    · constructor
      · intro r h
        simp [findFirstLE, hle] at h
        subst h
        refine ⟨List.mem_cons_self a rest, hle, ?_⟩
        intro s hsmem _
        rcases List.mem_cons.mp hsmem with h | h
        · subst h
          exact le_refl _
        · exact hhead s h
      · intro h
        simp [findFirstLE, hle] at h
    · obtain ⟨ih1, ih2⟩ := ih htail
      constructor
      · intro r h
        simp only [findFirstLE, if_neg hle] at h
        obtain ⟨hm, hrle, hmax⟩ := ih1 r h
        refine ⟨List.mem_cons_of_mem a hm, hrle, ?_⟩
        intro s hsmem hsle
        rcases List.mem_cons.mp hsmem with h' | h'
        · subst h'
          exact absurd hsle hle
        · exact hmax s h' hsle
      · intro h r hmem
        simp only [findFirstLE, if_neg hle] at h
        rcases List.mem_cons.mp hmem with h' | h'
        · subst h'
          omega
        · exact ih2 h r h'

/-- C6.  For rates sorted ascending by date: on the empty list the
lookup yields zeros; when some record's date is at most the day, the
lookup yields the fiziska and juridiska values of a record realizing
the greatest date at most the day; when every record's date exceeds
the day, it yields the last record's values. -/
theorem findRate_spec (rates : List DailyRate) (day : Nat)
    (hs : rates.Pairwise (fun a b => a.date ≤ b.date)) :
    (rates = [] → findRate rates day = (0, 0)) ∧
    ((∃ r ∈ rates, r.date ≤ day) →
      ∃ r ∈ rates, r.date ≤ day ∧
        findRate rates day = (r.fiziska, r.juridiska) ∧
        ∀ s ∈ rates, s.date ≤ day → s.date ≤ r.date) ∧
    ((rates ≠ [] ∧ ∀ r ∈ rates, day < r.date) →
      ∃ last, rates.getLast? = some last ∧
        findRate rates day = (last.fiziska, last.juridiska)) := by
  have hrev : rates.reverse.Pairwise (fun a b => b.date ≤ a.date) := by
    rw [List.pairwise_reverse]
    exact hs
  obtain ⟨h1, h2⟩ := findFirstLE_spec rates.reverse day hrev
  refine ⟨?_, ?_, ?_⟩
  · rintro rfl
    rfl
  · rintro ⟨r0, hr0mem, hr0le⟩
    cases hf : findFirstLE rates.reverse day with
    | none =>
      have := h2 hf r0 (List.mem_reverse.mpr hr0mem)
      omega
    | some r =>
      obtain ⟨hm, hrle, hmax⟩ := h1 r hf
      refine ⟨r, List.mem_reverse.mp hm, hrle, ?_, ?_⟩
      · unfold findRate
        rw [hf]
      · intro s hsmem hsle
        exact hmax s (List.mem_reverse.mpr hsmem) hsle
  · rintro ⟨hne, hall⟩
    cases hf : findFirstLE rates.reverse day with
    | some r =>
      obtain ⟨hm, hrle, _⟩ := h1 r hf
      have := hall r (List.mem_reverse.mp hm)
      omega
    | none =>
      cases hl : rates.getLast? with
      | none =>
        exact absurd (List.getLast?_eq_none_iff.mp hl) hne
      | some last =>
        refine ⟨last, rfl, ?_⟩
        unfold findRate lastRateValues
        rw [hf, hl]

/-- C6 (witness).  The lookup specification applied to a concrete
sorted rate list. -/
theorem findRate_spec_witness :
    (([⟨100, 1, 2⟩, ⟨200, 3, 4⟩] : List DailyRate) = [] →
      findRate [⟨100, 1, 2⟩, ⟨200, 3, 4⟩] 150 = (0, 0)) ∧
    ((∃ r ∈ ([⟨100, 1, 2⟩, ⟨200, 3, 4⟩] : List DailyRate), r.date ≤ 150) →
      ∃ r ∈ ([⟨100, 1, 2⟩, ⟨200, 3, 4⟩] : List DailyRate), r.date ≤ 150 ∧
        findRate [⟨100, 1, 2⟩, ⟨200, 3, 4⟩] 150 = (r.fiziska, r.juridiska) ∧
        ∀ s ∈ ([⟨100, 1, 2⟩, ⟨200, 3, 4⟩] : List DailyRate),
          s.date ≤ 150 → s.date ≤ r.date) ∧
    ((([⟨100, 1, 2⟩, ⟨200, 3, 4⟩] : List DailyRate) ≠ [] ∧
        ∀ r ∈ ([⟨100, 1, 2⟩, ⟨200, 3, 4⟩] : List DailyRate), 150 < r.date) →
      ∃ last, ([⟨100, 1, 2⟩, ⟨200, 3, 4⟩] : List DailyRate).getLast? = some last ∧
        findRate [⟨100, 1, 2⟩, ⟨200, 3, 4⟩] 150 = (last.fiziska, last.juridiska)) :=
  findRate_spec [⟨100, 1, 2⟩, ⟨200, 3, 4⟩] 150 (by decide)

/-! ## Claim theorems for the cabinet extractor's null propagation -/

/-- C8.  When the meetings-index fetch fails, or when no meeting row
carrying a UUID-shaped data-url path occurs in the fetched index, the
cabinet extractor's result is none, never a partially filled
structure. -/
theorem getCabinetCudarsItems_null_propagation
    (fetch : String → Option String) (hasA : Bool)
    (ai : String → String → Option String) :
    (fetch (BASE_URL ++ "/meetings/cabinet_ministers") = none →
      getCabinetCudarsItems fetch hasA ai = none) ∧
    (∀ html, fetch (BASE_URL ++ "/meetings/cabinet_ministers") = some html →
      findMeetingPath html = none →
      getCabinetCudarsItems fetch hasA ai = none) := by
  constructor
  · intro h
    simp [getCabinetCudarsItems, h]
  · intro html h1 h2
    simp [getCabinetCudarsItems, h1, h2]

/-- C8 (witness).  Null propagation at a fetch oracle that always
fails and at one returning an index without any meeting row. -/
theorem getCabinetCudarsItems_null_propagation_witness :
    getCabinetCudarsItems (fun _ => none) false (fun _ _ => none) = none ∧
    getCabinetCudarsItems (fun _ => some "<html>no rows</html>") false
      (fun _ _ => none) = none :=
  ⟨(getCabinetCudarsItems_null_propagation (fun _ => none) false
      (fun _ _ => none)).1 rfl,
   (getCabinetCudarsItems_null_propagation (fun _ => some "<html>no rows</html>")
      false (fun _ _ => none)).2 "<html>no rows</html>" rfl (by decide)⟩

/-! ## Claim theorems for the daily-rate builders -/

/-- C9.  The rate builders never divide by zero: the activation
divisor is never zero and equals 1 on an adjacent pair with equal
dates; the deactivation divisor is never zero, equals 30 on equal
dates and equals 30 when no next record exists; and both builders are
total, producing one rate per adjacent pair respectively per record. -/
theorem rate_divisors_nonzero :
    (∀ prev curr : MonthlyRecord, actDaysDiff prev curr ≠ 0) ∧
    (∀ prev curr : MonthlyRecord, prev.date = curr.date →
      actDaysDiff prev curr = 1) ∧
    (∀ (curr : MonthlyRecord) (nxt : Option MonthlyRecord),
      deactDays curr nxt ≠ 0) ∧
    (∀ curr nr : MonthlyRecord, nr.date = curr.date →
      deactDays curr (some nr) = 30) ∧
    (∀ curr : MonthlyRecord, deactDays curr none = 30) ∧
    (∀ all : List MonthlyRecord,
      (buildDailyRates all).length = all.length - 1) ∧
    (∀ all : List MonthlyRecord,
      (buildDeactRates all).length = all.length) := by
  refine ⟨?_, ?_, ?_, ?_, ?_, ?_, ?_⟩
  · intro prev curr
    unfold actDaysDiff pyOrInt
    split_ifs with h
    · norm_num
    · exact h
  · intro prev curr h
    unfold actDaysDiff pyOrInt
    rw [h]
    simp
  · intro curr nxt
    cases nxt with
    | none =>
      simp [deactDays]
    | some nr =>
      simp only [deactDays, pyOrInt]
      split_ifs with h
      · norm_num
      · exact h
  · intro curr nr h
    simp [deactDays, pyOrInt, h]
  · intro curr
    rfl
  · intro all
    simp [buildDailyRates, List.length_zip]
  · intro all
    cases all with
    | nil => rfl
    | cons a rest => simp [buildDeactRates, withNext, List.length_zip]

/-- C9 (witness).  The divisor statements applied to records with
equal dates and to a final record. -/
theorem rate_divisors_nonzero_witness :
    actDaysDiff ⟨700000, "A", 1, 2⟩ ⟨700000, "B", 3, 4⟩ = 1 ∧
    deactDays ⟨700000, "A", 1, 2⟩ (some ⟨700000, "B", 3, 4⟩) = 30 ∧
    deactDays ⟨700000, "A", 1, 2⟩ none = 30 :=
  ⟨rate_divisors_nonzero.2.1 _ _ rfl,
   rate_divisors_nonzero.2.2.2.1 _ _ rfl,
   rate_divisors_nonzero.2.2.2.2.1 _⟩

/-! ## Claim theorems for the statistics row parser -/

/-- C10 (counterexample).  A row whose date parses but whose present
fiziska count is not an integer is skipped: int raises ValueError and
the except clause drops the whole row, refuting the claim that only
rows with missing or unparseable dates are skipped. -/
theorem parseRecords_drops_bad_count_row :
    parseDate10 "2024-02-03" = some (toOrdinal 2024 2 3) ∧
    parseRecords [⟨some "2024-02-03", some "abc", some "5"⟩] = [] := by
  constructor
  · rfl
  · rfl

/-- C10 (amended).  A row is skipped individually when its date field
is missing or unparseable or when a present count field fails integer
parsing; a parsed row is prepended in order before the rest of the
rows, whose processing is unaffected; a missing count field defaults
to 0. -/
theorem parseRow_spec (r : RawRow) (rows : List RawRow) :
    (r.datums = none → parseRecords (r :: rows) = parseRecords rows) ∧
    (∀ ds, r.datums = some ds → parseDate10 ds = none →
      parseRecords (r :: rows) = parseRecords rows) ∧
    (∀ s, r.fiziska = some s → pyInt s = none →
      parseRecords (r :: rows) = parseRecords rows) ∧
    (∀ rec, parseRow r = some rec →
      parseRecords (r :: rows) = rec :: parseRecords rows) ∧
    (∀ ds ord, r.datums = some ds → parseDate10 ds = some ord →
      r.fiziska = none → r.juridiska = none →
      parseRow r = some ⟨ord, labelOfOrd ord, 0, 0⟩) := by
  refine ⟨?_, ?_, ?_, ?_, ?_⟩
  · intro h
    simp [parseRecords, List.filterMap_cons, parseRow, h]
  · intro ds h1 h2
    simp [parseRecords, List.filterMap_cons, parseRow, h1, h2]
  · intro s h1 h2
    have hnone : parseRow r = none := by
      cases hd : r.datums with
      | none => simp [parseRow, hd]
      | some ds =>
        cases hp : parseDate10 ds with
        | none => simp [parseRow, hd, hp]
        | some ord => simp [parseRow, hd, hp, h1, h2]
    simp [parseRecords, List.filterMap_cons, hnone]
  · intro rec h
    simp [parseRecords, List.filterMap_cons, h]
  · intro ds ord h1 h2 h3 h4
    simp [parseRow, h1, h2, h3, h4]

/-- C10 (witness).  The parser specification applied to concrete
rows: a missing date, an unparseable date, a parsed row prepended in
order, and defaulting counts. -/
theorem parseRow_spec_witness :
    parseRecords [(⟨none, some "1", some "2"⟩ : RawRow)] = parseRecords [] ∧
    parseRecords [(⟨some "nope", some "1", some "2"⟩ : RawRow)] = parseRecords [] ∧
    parseRow ⟨some "2024-02-03", none, none⟩ =
      some ⟨toOrdinal 2024 2 3, labelOfOrd (toOrdinal 2024 2 3), 0, 0⟩ :=
  ⟨(parseRow_spec ⟨none, some "1", some "2"⟩ []).1 rfl,
   (parseRow_spec ⟨some "nope", some "1", some "2"⟩ []).2.1 "nope" rfl (by decide),
   (parseRow_spec ⟨some "2024-02-03", none, none⟩ []).2.2.2.2 "2024-02-03"
     (toOrdinal 2024 2 3) rfl (by decide) rfl rfl⟩

end DigiGov
